import Mathlib

/-
Verification of the reconciliation / synchronization engine of
nvim-plugin-worker (src/models.py, src/main.py).

The Python program is shallowly embedded:
* a GitHub API JSON response is a `JValue`;
* Python exceptions raised while building the `Repository` pydantic model
  are values of `PyErr` (all of them are `Exception` subclasses; `systemExit`
  stands for the `BaseException`-only kinds that `except Exception` does
  not catch);
* the MongoDB collections `repo` and `stars_history` form a `Store`;
* external effects (GitHub metadata fetch, README fetch, wall-clock time,
  MongoDB write acknowledgements) are an oracle `World`; acknowledgement
  oracles are indexed by the position of the locator in the watch-list.
  An unacknowledged write (`w=majority` not confirmed) is modelled as not
  applied.
All string processing is performed on `List Char` with structural
recursion so that every definition evaluates inside the kernel.
-/

namespace Worker

deriving instance DecidableEq for Except

/-- Python exception kinds that the mapper's body can raise, plus
`systemExit` representing `BaseException`s that `except Exception` in
`construct_repo_from_api` would NOT catch. -/
inductive PyErr where
  | keyError (k : String)
  | typeError
  | attributeError
  | validationError
  | systemExit
deriving DecidableEq

/-- `True` exactly for the `Exception` subclasses, i.e. the errors caught by
`except Exception as e` (src/main.py line 89). -/
def pyIsException : PyErr → Bool
  | .systemExit => false
  | _ => true

/-- A Python/JSON value, as returned by `r.json()` for the GitHub API call. -/
inductive JValue where
  | null
  | str (s : String)
  | num (n : Int)
  | bool (b : Bool)
  | obj (fields : List (String × JValue))
  | arr (xs : List JValue)

/-- Python subscription `d[k]` with a string key: a `dict` either yields the
value or raises `KeyError`; any non-dict raises `TypeError`. -/
def jGet : JValue → String → Except PyErr JValue
  | .obj fs, k =>
      match fs.lookup k with
      | some v => Except.ok v
      | none => Except.error (PyErr.keyError k)
  | _, _ => Except.error PyErr.typeError

/-- Python `str(v)` as used by the f-string building the raw-README URL
(src/main.py line 66); only the `str` case occurs in practice, the rendering
of containers is abbreviated. -/
def pyStr : JValue → String
  | .str s => s
  | .num n => toString n
  | .null => "None"
  | .bool b => if b then "True" else "False"
  | .obj _ => "dict"
  | .arr _ => "list"

/-- Python `str.title()` (src/main.py line 86), on ASCII text: an alphabetic
character is uppercased after a non-alphabetic character (or at the start)
and lowercased otherwise. -/
def pyTitleGo : Bool → List Char → List Char
  | _, [] => []
  | prevAlpha, c :: cs =>
      if c.isAlpha then
        (if prevAlpha then c.toLower else c.toUpper) :: pyTitleGo true cs
      else
        c :: pyTitleGo false cs

/-- Python `str.title()` on a `String`. -/
def pyTitle (s : String) : String := String.mk (pyTitleGo false s.toList)

/-- pydantic validation of a required `str` field (pydantic v2 does not
coerce `None` or numbers to `str`). -/
def asStr : JValue → Except PyErr String
  | .str s => Except.ok s
  | _ => Except.error PyErr.validationError

/-- Decimal digit value of a character, if it is a digit. -/
def digitsToNatAux : Nat → List Char → Option Nat
  | acc, [] => some acc
  | acc, c :: cs =>
      if c.isDigit then digitsToNatAux (acc * 10 + (c.toNat - 48)) cs
      else none

/-- Parse a non-empty all-digit character list as a natural number. -/
def digitsToNat? : List Char → Option Nat
  | [] => none
  | cs => digitsToNatAux 0 cs

/-- Python `int(s)` on a trimmed decimal literal, used to model pydantic's
lax coercion of numeric strings to `int`. -/
def pyToInt? (s : String) : Option Int :=
  match s.toList with
  | '-' :: cs => (digitsToNat? cs).map (fun n => -(n : Int))
  | cs => (digitsToNat? cs).map (fun n => (n : Int))

/-- pydantic validation of the `stars: int` field: an integer is accepted,
a decimal string is coerced, everything else is rejected. -/
def asInt : JValue → Except PyErr Int
  | .num n => Except.ok n
  | .str s =>
      match pyToInt? s with
      | some n => Except.ok n
      | none => Except.error PyErr.validationError
  | _ => Except.error PyErr.validationError

/-- Characters pydantic's URL parser accepts in the authority part of an
http(s) URL (host, port, userinfo). -/
def isHostChar (c : Char) : Bool :=
  c.isAlphanum || c == '.' || c == '-' || c == '_' || c == ':' || c == '@'

/-- Validity of what follows `http://` or `https://`: a non-empty authority
of host characters up to the first `/`, then a path free of raw spaces. -/
def validHostPath (cs : List Char) : Bool :=
  let host := cs.takeWhile (fun c => c != '/')
  !host.isEmpty && host.all isHostChar &&
    (cs.drop host.length).all (fun c => c != ' ')

/-- pydantic v2 `HttpUrl` validation: an `http(s)` scheme, a non-empty
well-formed authority, and a path without raw spaces.  Where pydantic would
accept a URL only after percent-encoding normalization (e.g. a space in the
path), the model rejects it, since serializing `HttpUrl` back to `str` is
modelled as the identity; no theorem asserts mapper failure from this
validator, so the conservative direction is sound. -/
def isHttpUrl (s : String) : Bool :=
  match s.toList with
  | 'h' :: 't' :: 't' :: 'p' :: 's' :: ':' :: '/' :: '/' :: rest => validHostPath rest
  | 'h' :: 't' :: 't' :: 'p' :: ':' :: '/' :: '/' :: rest => validHostPath rest
  | _ => false

/-- pydantic validation of the `url: HttpUrl` field. -/
def asHttpUrl : JValue → Except PyErr String
  | .str s => if isHttpUrl s then Except.ok s else Except.error PyErr.validationError
  | _ => Except.error PyErr.validationError

/-- Numeric value of two ASCII digit characters. -/
def twoVal (a b : Char) : Nat := (a.toNat - 48) * 10 + (b.toNat - 48)

/-- Gregorian leap-year rule, as applied by pydantic's date parser. -/
def isLeapYear (y : Nat) : Bool :=
  y % 4 == 0 && (y % 100 != 0 || y % 400 == 0)

/-- Days in a month of the proleptic Gregorian calendar. -/
def daysInMonth (y m : Nat) : Nat :=
  if m == 2 then (if isLeapYear y then 29 else 28)
  else if m == 4 || m == 6 || m == 9 || m == 11 then 30
  else 31

/-- A trailing ISO-8601 UTC designator `Z`/`z` or `±HH:MM` offset, or
nothing. -/
def validOffset : List Char → Bool
  | [] => true
  | ['Z'] => true
  | ['z'] => true
  | '+' :: h1 :: h2 :: ':' :: m1 :: m2 :: [] =>
      h1.isDigit && h2.isDigit && m1.isDigit && m2.isDigit &&
      decide (twoVal h1 h2 ≤ 23) && decide (twoVal m1 m2 ≤ 59)
  | '-' :: h1 :: h2 :: ':' :: m1 :: m2 :: [] =>
      h1.isDigit && h2.isDigit && m1.isDigit && m2.isDigit &&
      decide (twoVal h1 h2 ≤ 23) && decide (twoVal m1 m2 ≤ 59)
  | _ => false

/-- An ISO-8601 `HH:MM:SS` time with an optional fraction of 1-6 digits and
an optional offset. -/
def validTime : List Char → Bool
  | h1 :: h2 :: ':' :: m1 :: m2 :: ':' :: s1 :: s2 :: rest =>
      h1.isDigit && h2.isDigit && m1.isDigit && m2.isDigit &&
      s1.isDigit && s2.isDigit &&
      decide (twoVal h1 h2 ≤ 23) && decide (twoVal m1 m2 ≤ 59) &&
      decide (twoVal s1 s2 ≤ 59) &&
      (match rest with
       | '.' :: ds =>
           let frac := ds.takeWhile Char.isDigit
           !frac.isEmpty && decide (frac.length ≤ 6) &&
             validOffset (ds.drop frac.length)
       | _ => validOffset rest)
  | _ => false

/-- An ISO-8601 date `YYYY-MM-DD` with calendar-valid month and day (leap
years included), optionally followed by `T` or a space and a time. -/
def isIso8601Chars : List Char → Bool
  | y1 :: y2 :: y3 :: y4 :: '-' :: m1 :: m2 :: '-' :: d1 :: d2 :: rest =>
      y1.isDigit && y2.isDigit && y3.isDigit && y4.isDigit &&
      m1.isDigit && m2.isDigit && d1.isDigit && d2.isDigit &&
      (let y := twoVal y1 y2 * 100 + twoVal y3 y4
       let m := twoVal m1 m2
       let d := twoVal d1 d2
       decide (1 ≤ m) && decide (m ≤ 12) && decide (1 ≤ d) &&
         decide (d ≤ daysInMonth y m)) &&
      (match rest with
       | [] => true
       | 'T' :: t => validTime t
       | ' ' :: t => validTime t
       | _ => false)
  | _ => false

/-- pydantic v2 parsing of a string into the `last_updated: datetime` field
(speedate's ISO-8601 grammar): see `isIso8601Chars`.  Where speedate is
laxer (minute-precision times, `±HHMM` offsets), the model rejects; no
theorem asserts mapper failure from this validator, so the conservative
direction is sound. -/
def isIso8601 (s : String) : Bool := isIso8601Chars s.toList

/-- pydantic validation of the `last_updated: datetime` field from a JSON
value; an accepted timestamp is kept as its string.  A `null` or other
non-string is rejected as in the program (numeric unix timestamps, which
pydantic would accept, are not modelled; no theorem relies on one). -/
def asDatetime : JValue → Except PyErr String
  | .str s => if isIso8601 s then Except.ok s else Except.error PyErr.validationError
  | _ => Except.error PyErr.validationError

/-- Python `api_response["language"].title()`: attribute access `.title`
raises `AttributeError` on any non-`str` value (in particular on `None`). -/
def titleOf : JValue → Except PyErr String
  | .str s => Except.ok (pyTitle s)
  | _ => Except.error PyErr.attributeError

/-- The field set of the pydantic `Repository` model (src/models.py) other
than `id`: exactly the keys of `model_dump()` that remain after
`dump.pop("id")`/`dump.pop("_id")`. `id` (a fresh uuid4) is supplied by the
caller at insert time, where it becomes the Mongo `_id`. -/
structure RepoFields where
  readme : String
  name : String
  author : String
  url : String
  description : String
  stars : Int
  language : String
  last_updated : String
deriving DecidableEq

/-- Body of the `try:` block of `construct_repo_from_api`
(src/main.py lines 80-88): the keyword arguments are evaluated
(dict lookups and `.title()`), then pydantic validates each field.
Python evaluates all lookups before any validation; this model interleaves
lookup and validation per field, which yields exactly the same success set
(and possibly a different error kind, which the handler does not inspect). -/
def construct_repo_body (api_response : JValue) : Except PyErr RepoFields :=
  match jGet api_response "name" with
  | .error e => Except.error e
  | .ok nv =>
  match asStr nv with
  | .error e => Except.error e
  | .ok name =>
  match jGet api_response "owner" with
  | .error e => Except.error e
  | .ok owner =>
  match jGet owner "login" with
  | .error e => Except.error e
  | .ok lv =>
  match asStr lv with
  | .error e => Except.error e
  | .ok author =>
  match jGet api_response "html_url" with
  | .error e => Except.error e
  | .ok uv =>
  match asHttpUrl uv with
  | .error e => Except.error e
  | .ok url =>
  match jGet api_response "description" with
  | .error e => Except.error e
  | .ok dv =>
  match asStr dv with
  | .error e => Except.error e
  | .ok description =>
  match jGet api_response "stargazers_count" with
  | .error e => Except.error e
  | .ok sv =>
  match asInt sv with
  | .error e => Except.error e
  | .ok stars =>
  match jGet api_response "language" with
  | .error e => Except.error e
  | .ok lgv =>
  match titleOf lgv with
  | .error e => Except.error e
  | .ok language =>
  match jGet api_response "updated_at" with
  | .error e => Except.error e
  | .ok tv =>
  match asDatetime tv with
  | .error e => Except.error e
  | .ok last_updated =>
    Except.ok { readme := "", name := name, author := author, url := url,
                description := description, stars := stars,
                language := language, last_updated := last_updated }

/-- `construct_repo_from_api` (src/main.py lines 73-95): the body runs under
`try: ... except Exception as e: ...return None`; a caught exception is
logged and turned into `None` (`Except.ok none`); an exception that is not
an `Exception` subclass would propagate (`Except.error`). -/
def construct_repo_from_api (api_response : JValue) : Except PyErr (Option RepoFields) :=
  match construct_repo_body api_response with
  | .ok repo => Except.ok (some repo)
  | .error e => if pyIsException e then Except.ok none else Except.error e

/-- `re.sub(r"https?://", "", s)` (src/main.py line 56): remove every
non-overlapping occurrence of `http://` or `https://`, scanning left to
right. -/
def re_sub_scheme : List Char → List Char
  | 'h' :: 't' :: 't' :: 'p' :: 's' :: ':' :: '/' :: '/' :: rest => re_sub_scheme rest
  | 'h' :: 't' :: 't' :: 'p' :: ':' :: '/' :: '/' :: rest => re_sub_scheme rest
  | c :: cs => c :: re_sub_scheme cs
  | [] => []

/-- Python `s.split("/")` (never returns an empty list; splitting the empty
string yields `[""]`). -/
def splitSlash : List Char → List (List Char)
  | [] => [[]]
  | c :: cs =>
      if c = '/' then [] :: splitSlash cs
      else
        match splitSlash cs with
        | [] => [[c]]
        | w :: ws => (c :: w) :: ws

/-- Join segments with `/` (inverse direction of `splitSlash`, used to
rebuild a URL path). -/
def joinSlash : List (List Char) → List Char
  | [] => []
  | [w] => w
  | w :: ws => w ++ '/' :: joinSlash ws

/-- `re.sub(r"/$", "", s)` (src/main.py line 58): drop a single trailing
slash. -/
def stripTrailingSlash (cs : List Char) : List Char :=
  match cs.getLast? with
  | some '/' => cs.dropLast
  | _ => cs

/-- pydantic `HttpUrl.path` for an http(s) URL string: everything from the
first `/` after the authority; pydantic normalizes a missing path to `"/"`.
A string without an http(s) scheme has no path here (`none`). -/
def httpUrl_path (url : String) : Option String :=
  match url.toList with
  | 'h' :: 't' :: 't' :: 'p' :: 's' :: ':' :: '/' :: '/' :: rest =>
      some (pathOfRest rest)
  | 'h' :: 't' :: 't' :: 'p' :: ':' :: '/' :: '/' :: rest =>
      some (pathOfRest rest)
  | _ => none
where
  pathOfRest (rest : List Char) : String :=
    match splitSlash rest with
    | [] => "/"
    | _ :: segs => if segs = [] then "/" else String.mk ('/' :: joinSlash segs)

/-- `get_repo_name` (src/main.py lines 44-61): take `url.path`, raise if it
is missing or empty, strip scheme occurrences and a trailing slash, split on
`/`, and return the last two segments `(author, repo-name)` via Python's
negative indexing (`IndexError` when the split has fewer than two parts). -/
def get_repo_name (url : String) : Except String (String × String) :=
  match httpUrl_path url with
  | none => Except.error "Error: failed to get repo name"
  | some path =>
      if path = "" then Except.error "Error: failed to get repo name"
      else
        let cs1 := re_sub_scheme path.toList
        let cs2 := stripTrailingSlash cs1
        let url_strs := splitSlash cs2
        if url_strs.length < 2 then
          Except.error "IndexError: list index out of range"
        else
          Except.ok (String.mk (url_strs.getD (url_strs.length - 2) []),
                     String.mk (url_strs.getD (url_strs.length - 1) []))

example : get_repo_name "https://example.com/acme/widget/" = Except.ok ("acme", "widget") := by decide
example : get_repo_name "https://example.com/widget" = Except.ok ("", "widget") := by decide
example : pyTitle "rust" = "Rust" := by decide

/-- A document of the Mongo collection `repos["repo"]`: the storage key
`_id` (the renamed `id`, src/main.py lines 130-132) plus the mutable field
set. Documents written by this engine always carry the full field set. -/
structure StoredRepo where
  _id : Nat
  f : RepoFields
deriving DecidableEq

/-- A document of the append-only collection `repos["stars_history"]`
(src/main.py lines 210-214). -/
structure Sample where
  repo_id : Nat
  timestamp : Nat
  stars : Int
deriving DecidableEq

/-- The persistent store: the two logical collections, in insertion order. -/
structure Store where
  repos : List StoredRepo
  stars_history : List Sample
deriving DecidableEq

/-- The store before any run. -/
def emptyStore : Store := { repos := [], stars_history := [] }

/-- Number of `repo` documents whose `url` field equals `u`. -/
def countUrl (repos : List StoredRepo) (u : String) : Nat :=
  (repos.filter (fun r => r.f.url == u)).length

/-- Mongo `update_one({"url": u}, {"$set": dump})` where `dump` is the full
field set minus `_id`: the first document matching `url == u` gets every
field of `dump` (including `url`) and keeps its `_id`; matching zero
documents is not an error. -/
def updateOneByUrl : List StoredRepo → String → RepoFields → List StoredRepo
  | [], _, _ => []
  | r :: rs, u, fields =>
      if r.f.url == u then { r with f := fields } :: rs
      else r :: updateOneByUrl rs u fields

/-- The external world: GitHub metadata responses (`none` models a non-2xx
status), raw README fetches (`none` models a non-200 status), wall-clock
time, and MongoDB write acknowledgements, the latter three indexed by the
position of the locator in the watch-list (at most one history write and
one repo write happen per locator). -/
structure World where
  api : String → String → Option JValue
  readme : String → String → String → Option String
  now : Nat → Nat
  historyAck : Nat → Bool
  updateAck : Nat → Bool
  insertAck : Nat → Bool

/-- `create_repo_in_db` (src/main.py lines 98-149), at watch-list position
`i`, acting on store `st` for locator `rp` (its pydantic-normalized URL
string), with `nid` the fresh uuid4 for a possible insert.  Any raised
exception is an `Except.error`; they are all `Exception` subclasses, so the
caller's `except Exception` boundary catches every one of them.  The
`construct_repo_from_api` propagation arm is provably unreachable (see
`construct_repo_body_raises_exception`). -/
def create_repo_in_db (w : World) (i : Nat) (st : Store) (rp : String)
    (existsFlag : Bool) (nid : Nat) : Except String (Store × Nat) :=
  match get_repo_name rp with
  | .error e => Except.error e
  | .ok (user, repo) =>
  match w.api user repo with
  | none => Except.error "Error: failed to get repo info from GitHub API"
  | some info =>
  match jGet info "default_branch" with
  | .error _ => Except.error "KeyError: default_branch"
  | .ok bv =>
  match w.readme user repo (pyStr bv) with
  | none => Except.error "Error: failed to get readme from GitHub"
  | some readme =>
  match construct_repo_from_api info with
  | .error _ => Except.error "BaseException escaped the mapper"
  | .ok none => Except.error "Error: failed to construct repo from api response"
  | .ok (some repo_info) =>
    let dump : RepoFields := { repo_info with readme := readme }
    if existsFlag then
      if w.updateAck i then
        Except.ok ({ st with repos := updateOneByUrl st.repos rp dump }, nid)
      else Except.error "Error: Failed to update repo in db"
    else
      if st.repos.any (fun r => r._id == nid) then
        Except.error "DuplicateKeyError"
      else if w.insertAck i then
        Except.ok ({ st with repos := st.repos ++ [{ _id := nid, f := dump }] }, nid + 1)
      else Except.error "Error: Failed to insert repo into db"

/-- One iteration of the per-locator loop (src/main.py lines 199-224):
look up the record by `url`; if it exists, insert the pre-update star count
into `stars_history` — an unacknowledged history insert raises OUTSIDE the
`try`, so it is the third component (a fatal, batch-aborting error) — then
call `create_repo_in_db` inside `try ... except Exception`, whose failures
are logged and swallowed. -/
def process_locator (w : World) (i : Nat) (st : Store) (nid : Nat)
    (rp : String) : Store × Nat × Option String :=
  match st.repos.find? (fun r => r.f.url == rp) with
  | some res =>
      let sample : Sample :=
        { repo_id := res._id, timestamp := w.now i, stars := res.f.stars }
      if w.historyAck i then
        let st1 := { st with stars_history := st.stars_history ++ [sample] }
        match create_repo_in_db w i st1 rp true nid with
        | .ok (st2, nid2) => (st2, nid2, none)
        | .error _ => (st1, nid, none)
      else
        (st, nid, some "Error: Failed to insert star update into db")
  | none =>
      match create_repo_in_db w i st rp false nid with
      | .ok (st2, nid2) => (st2, nid2, none)
      | .error _ => (st, nid, none)

/-- The batch loop `for repo in repos:` (src/main.py lines 199-224),
threading the store, the uuid supply and the position index; a fatal error
(the uncaught history-insert failure) stops the loop with the store as it
was at that point. -/
def run_batch (w : World) : List String → Store → Nat → Nat → Store × Nat × Option String
  | [], st, _, nid => (st, nid, none)
  | rp :: rest, st, i, nid =>
      match process_locator w i st nid rp with
      | (st1, nid1, none) => run_batch w rest st1 (i + 1) nid1
      | (st1, nid1, some e) => (st1, nid1, some e)

/-- A locator for which the whole fetch-and-map pipeline of
`create_repo_in_db` succeeds in world `w`, yielding mapped fields `f0` and
README text `rd`. -/
def FetchYields (w : World) (rp : String) (f0 : RepoFields) (rd : String) : Prop :=
  ∃ user repo info bv,
    get_repo_name rp = Except.ok (user, repo) ∧
    w.api user repo = some info ∧
    jGet info "default_branch" = Except.ok bv ∧
    w.readme user repo (pyStr bv) = some rd ∧
    construct_repo_from_api info = Except.ok (some f0)

/-- Every persistence write in world `w` is acknowledged. -/
def AllAcks (w : World) : Prop :=
  (∀ i, w.historyAck i = true) ∧ (∀ i, w.updateAck i = true) ∧
    (∀ i, w.insertAck i = true)

section Fixtures

/-- GitHub API response for the repository `acme/widget`, canonical
`html_url` without a trailing slash. -/
def infoW : JValue := JValue.obj
  [("name", JValue.str "widget"),
   ("owner", JValue.obj [("login", JValue.str "acme")]),
   ("html_url", JValue.str "https://example.com/acme/widget"),
   ("description", JValue.str "a widget"),
   ("stargazers_count", JValue.num 7),
   ("language", JValue.str "rust"),
   ("updated_at", JValue.str "2024-01-01T00:00:00Z"),
   ("default_branch", JValue.str "main")]

/-- The mapped fields of `infoW` before the README is attached. -/
def fieldsW : RepoFields :=
  { readme := "", name := "widget", author := "acme",
    url := "https://example.com/acme/widget", description := "a widget",
    stars := 7, language := "Rust", last_updated := "2024-01-01T00:00:00Z" }

example : construct_repo_from_api infoW = Except.ok (some fieldsW) := by decide

end Fixtures

section Lemmas

theorem any_id_eq_false {repos : List StoredRepo} {nid : Nat}
    (h : ∀ r ∈ repos, r._id ≠ nid) :
    repos.any (fun r => r._id == nid) = false := by
  rw [List.any_eq_false]
  intro r hr
  simpa using h r hr

/-- Success of the update branch of `create_repo_in_db`: when the whole
fetch-and-map pipeline succeeds and the update is acknowledged, the store's
`repo` collection is rewritten by `update_one` and nothing else changes. -/
theorem create_update_ok (w : World) (i nid : Nat) (st : Store)
    (rp user repo : String) (info bv : JValue) (rd : String) (f0 : RepoFields)
    (hname : get_repo_name rp = Except.ok (user, repo))
    (hapi : w.api user repo = some info)
    (hbr : jGet info "default_branch" = Except.ok bv)
    (hrd : w.readme user repo (pyStr bv) = some rd)
    (hmap : construct_repo_from_api info = Except.ok (some f0))
    (hupd : w.updateAck i = true) :
    create_repo_in_db w i st rp true nid =
      Except.ok ({ st with repos := updateOneByUrl st.repos rp { f0 with readme := rd } }, nid) := by
  simp [create_repo_in_db, hname, hapi, hbr, hrd, hmap, hupd]

/-- Success of the insert branch of `create_repo_in_db`: a fresh `_id` and an
acknowledged insert append one document to the `repo` collection. -/
theorem create_insert_ok (w : World) (i nid : Nat) (st : Store)
    (rp user repo : String) (info bv : JValue) (rd : String) (f0 : RepoFields)
    (hname : get_repo_name rp = Except.ok (user, repo))
    (hapi : w.api user repo = some info)
    (hbr : jGet info "default_branch" = Except.ok bv)
    (hrd : w.readme user repo (pyStr bv) = some rd)
    (hmap : construct_repo_from_api info = Except.ok (some f0))
    (hins : w.insertAck i = true)
    (hfresh : ∀ r ∈ st.repos, r._id ≠ nid) :
    create_repo_in_db w i st rp false nid =
      Except.ok ({ st with
                   repos := st.repos ++ [{ _id := nid, f := { f0 with readme := rd } }] },
                 nid + 1) := by
  simp [create_repo_in_db, hname, hapi, hbr, hrd, hmap, hins, any_id_eq_false hfresh]

/-- `create_repo_in_db` never touches the `stars_history` collection. -/
theorem create_history_eq {w : World} {i nid nid2 : Nat} {st st2 : Store}
    {rp : String} {ex : Bool}
    (h : create_repo_in_db w i st rp ex nid = Except.ok (st2, nid2)) :
    st2.stars_history = st.stars_history := by
  unfold create_repo_in_db at h
  repeat' split at h
  all_goals (try simp only [Except.ok.injEq, Prod.mk.injEq] at h)
  all_goals (first
    | (obtain ⟨h1, h2⟩ := h; rw [← h1])
    | exact absurd h (by simp))

theorem countUrl_nil (u : String) : countUrl [] u = 0 := rfl

theorem countUrl_cons (r : StoredRepo) (rs : List StoredRepo) (u : String) :
    countUrl (r :: rs) u = (if r.f.url = u then 1 else 0) + countUrl rs u := by
  simp only [countUrl, List.filter_cons]
  split
  · simp_all
    omega
  · simp_all

theorem countUrl_append_single (repos : List StoredRepo) (r : StoredRepo) (u : String) :
    countUrl (repos ++ [r]) u = countUrl repos u + (if r.f.url = u then 1 else 0) := by
  simp only [countUrl, List.filter_append]
  split <;> simp_all

theorem find_none_of_countUrl_zero {repos : List StoredRepo} {u : String}
    (h : countUrl repos u = 0) :
    repos.find? (fun r => r.f.url == u) = none := by
  induction repos with
  | nil => rfl
  | cons r rs ih =>
      rw [countUrl_cons] at h
      by_cases hr : r.f.url = u
      · simp [hr] at h
      · rw [if_neg hr, Nat.zero_add] at h
        have hb : (r.f.url == u) = false := beq_eq_false_iff_ne.mpr hr
        simp [List.find?, hb, ih h]

theorem find_some_of_countUrl_pos {repos : List StoredRepo} {u : String}
    (h : 0 < countUrl repos u) :
    ∃ r, repos.find? (fun r2 => r2.f.url == u) = some r := by
  induction repos with
  | nil => simp [countUrl] at h
  | cons r rs ih =>
      by_cases hr : r.f.url = u
      · exact ⟨r, by simp [List.find?, beq_iff_eq.mpr hr]⟩
      · rw [countUrl_cons, if_neg hr, Nat.zero_add] at h
        obtain ⟨r2, hr2⟩ := ih h
        exact ⟨r2, by simp [List.find?, beq_eq_false_iff_ne.mpr hr, hr2]⟩

theorem updateOneByUrl_length (repos : List StoredRepo) (u : String)
    (fields : RepoFields) :
    (updateOneByUrl repos u fields).length = repos.length := by
  induction repos with
  | nil => rfl
  | cons r rs ih => simp only [updateOneByUrl]; split <;> simp [ih]

/-- Updating the first `url == u` document with fields whose `url` is again
`u` changes no per-url document count. -/
theorem countUrl_updateOne (repos : List StoredRepo) (u v : String)
    (fields : RepoFields) (hf : fields.url = u) :
    countUrl (updateOneByUrl repos u fields) v = countUrl repos v := by
  induction repos with
  | nil => rfl
  | cons r rs ih =>
      simp only [updateOneByUrl]
      by_cases hr : r.f.url = u
      · rw [if_pos (by simpa using hr), countUrl_cons, countUrl_cons]
        simp [hf, hr]
      · rw [if_neg (by simpa using hr), countUrl_cons, countUrl_cons, ih]

/-- A successful `find_one({"url": u})` splits the collection at its first
matching document, and `update_one` rewrites exactly that document, keeping
its `_id`. -/
theorem find_url_split {repos : List StoredRepo} {u : String} {r : StoredRepo}
    (h : repos.find? (fun x => x.f.url == u) = some r) :
    ∃ a b, repos = a ++ r :: b ∧ (r.f.url = u) ∧
      ∀ fields, updateOneByUrl repos u fields = a ++ { r with f := fields } :: b := by
  induction repos with
  | nil => simp [List.find?] at h
  | cons x xs ih =>
      by_cases hx : x.f.url = u
      · have hb : (x.f.url == u) = true := beq_iff_eq.mpr hx
        have hxr : x = r := by simpa [List.find?, hb] using h
        subst hxr
        exact ⟨[], xs, rfl, hx, fun fields => by simp [updateOneByUrl, hb]⟩
      · have hb : (x.f.url == u) = false := beq_eq_false_iff_ne.mpr hx
        have h' : xs.find? (fun y => y.f.url == u) = some r := by
          simpa [List.find?, hb] using h
        obtain ⟨a, b, hab, hru, hupd⟩ := ih h'
        refine ⟨x :: a, b, by simp [hab], hru, fun fields => ?_⟩
        simp [updateOneByUrl, hb, hupd fields]

end Lemmas

section MapperLemmas

theorem jGet_err {v : JValue} {k : String} {e : PyErr}
    (h : jGet v k = Except.error e) : pyIsException e = true := by
  unfold jGet at h
  repeat' split at h
  all_goals cases h
  all_goals rfl

theorem asStr_err {v : JValue} {e : PyErr}
    (h : asStr v = Except.error e) : pyIsException e = true := by
  unfold asStr at h
  repeat' split at h
  all_goals cases h
  all_goals rfl

theorem asInt_err {v : JValue} {e : PyErr}
    (h : asInt v = Except.error e) : pyIsException e = true := by
  unfold asInt at h
  repeat' split at h
  all_goals cases h
  all_goals rfl

theorem asHttpUrl_err {v : JValue} {e : PyErr}
    (h : asHttpUrl v = Except.error e) : pyIsException e = true := by
  unfold asHttpUrl at h
  repeat' split at h
  all_goals cases h
  all_goals rfl

theorem asDatetime_err {v : JValue} {e : PyErr}
    (h : asDatetime v = Except.error e) : pyIsException e = true := by
  unfold asDatetime at h
  repeat' split at h
  all_goals cases h
  all_goals rfl

theorem titleOf_err {v : JValue} {e : PyErr}
    (h : titleOf v = Except.error e) : pyIsException e = true := by
  unfold titleOf at h
  repeat' split at h
  all_goals cases h
  all_goals rfl

/-- Every exception the body of `construct_repo_from_api` can raise is an
`Exception` subclass, i.e. one the `except Exception` handler catches. -/
theorem construct_repo_body_raises_exception (api_response : JValue) :
    ∀ e, construct_repo_body api_response = Except.error e → pyIsException e = true := by
  intro e h
  unfold construct_repo_body at h
  repeat' split at h
  all_goals cases h
  all_goals first
    | exact jGet_err (by assumption)
    | exact asStr_err (by assumption)
    | exact asInt_err (by assumption)
    | exact asHttpUrl_err (by assumption)
    | exact asDatetime_err (by assumption)
    | exact titleOf_err (by assumption)

end MapperLemmas

/-- C10: the record mapper is total as a function returning an option: for
every input value — missing keys, nulls, wrong-typed fields, non-objects —
`construct_repo_from_api` returns either a `Repository` field set or `None`;
no exception escapes the `try/except Exception` boundary to its caller. -/
theorem c10_mapper_total (api_response : JValue) :
    ∃ v, construct_repo_from_api api_response = Except.ok v := by
  unfold construct_repo_from_api
  cases h : construct_repo_body api_response with
  | ok repo => exact ⟨some repo, rfl⟩
  | error e =>
      refine ⟨none, ?_⟩
      simp [construct_repo_body_raises_exception api_response e h]

/-- C2: the claim's positive example holds — `"https://example.com/acme/widget/"`
parses to `(author="acme", repo="widget")` — but a URL with a single path
segment is NOT a locator-parse failure: `get_repo_name` silently returns the
pair `("", "widget")` for `"https://example.com/widget"` (the split of
`"/widget"` is `["", "widget"]` and Python's `[-2]` picks the empty
segment).  The code's own docstring carries `TODO: add error handling`. -/
theorem c2_locator_parse_code_bug :
    get_repo_name "https://example.com/acme/widget/" = Except.ok ("acme", "widget") ∧
    get_repo_name "https://example.com/widget" = Except.ok ("", "widget") := by
  exact ⟨by decide, by decide⟩

section C7Fixtures

end C7Fixtures

section EngineFixtures

/-- GitHub API response for a second repository `acme/gadget`. -/
def infoG : JValue := JValue.obj
  [("name", JValue.str "gadget"),
   ("owner", JValue.obj [("login", JValue.str "acme")]),
   ("html_url", JValue.str "https://example.com/acme/gadget"),
   ("description", JValue.str "a gadget"),
   ("stargazers_count", JValue.num 2),
   ("language", JValue.str "lua"),
   ("updated_at", JValue.str "2024-02-02T00:00:00Z"),
   ("default_branch", JValue.str "main")]

/-- A world where every fetch succeeds and every write is acknowledged. -/
def wGood : World :=
  { api := fun user repo =>
      if user == "acme" && repo == "widget" then some infoW
      else if user == "acme" && repo == "gadget" then some infoG
      else none,
    readme := fun _ _ _ => some "README text",
    now := fun _ => 0,
    historyAck := fun _ => true,
    updateAck := fun _ => true,
    insertAck := fun _ => true }

/-- `wGood` with every raw-README fetch returning a non-200 status. -/
def wNoReadme : World := { wGood with readme := fun _ _ _ => none }

/-- `wGood` with every `stars_history` insert left unacknowledged. -/
def wAckFail : World := { wGood with historyAck := fun _ => false }

/-- A stored record for `acme/widget` from an earlier cycle: 5 stars and an
old README. -/
def rCur : StoredRepo :=
  { _id := 3,
    f := { readme := "old readme", name := "widget", author := "acme",
           url := "https://example.com/acme/widget", description := "old",
           stars := 5, language := "Rust",
           last_updated := "2023-01-01T00:00:00Z" } }

/-- A store holding exactly the record `rCur` and no history samples. -/
def stOne : Store := { repos := [rCur], stars_history := [] }

/-- `rCur` keyed by a trailing-slash variant of the same URL. -/
def rSlash : StoredRepo :=
  { _id := 4, f := { rCur.f with url := "https://example.com/acme/widget/" } }

/-- A store holding exactly the record `rSlash`. -/
def stSlash : Store := { repos := [rSlash], stars_history := [] }

end EngineFixtures

/-- C6: creation atomicity — a locator with no record in the store whose
README fetch returns `Absent` (non-200) during first-time sync leaves the
store completely unchanged: no Repository record and no StarHistorySample
is written for it (the `raise` on a missing README precedes both the
insert and any history append, which only happens on the update path). -/
theorem c6_creation_atomicity (w : World) (i nid : Nat) (st : Store)
    (rp user repo : String) (info bv : JValue)
    (hfind : st.repos.find? (fun r => r.f.url == rp) = none)
    (hname : get_repo_name rp = Except.ok (user, repo))
    (hapi : w.api user repo = some info)
    (hbr : jGet info "default_branch" = Except.ok bv)
    (hrd : w.readme user repo (pyStr bv) = none) :
    process_locator w i st nid rp = (st, nid, none) := by
  simp [process_locator, hfind, create_repo_in_db, hname, hapi, hbr, hrd]

/-- C6 witness: first-time sync of `acme/widget` against the empty store in
a world with no READMEs stores nothing. -/
theorem c6_creation_atomicity_witness :
    process_locator wNoReadme 0 emptyStore 0 "https://example.com/acme/widget" =
      (emptyStore, 0, none) :=
  c6_creation_atomicity wNoReadme 0 0 emptyStore "https://example.com/acme/widget"
    "acme" "widget" infoW (JValue.str "main") rfl rfl rfl rfl rfl

/-- C3 (amended): when the README fetch returns `Absent` during an update
cycle, the whole update is aborted — `create_repo_in_db` raises before
`update_one` — so the stored record keeps ALL its prior field values,
`readme` included; no field is refreshed from the newly fetched metadata
(only the pre-update history sample, already inserted, remains). -/
theorem c3_update_abort_on_absent_readme (w : World) (i nid : Nat) (st : Store)
    (rp user repo : String) (r : StoredRepo) (info bv : JValue)
    (hfind : st.repos.find? (fun x => x.f.url == rp) = some r)
    (hack : w.historyAck i = true)
    (hname : get_repo_name rp = Except.ok (user, repo))
    (hapi : w.api user repo = some info)
    (hbr : jGet info "default_branch" = Except.ok bv)
    (hrd : w.readme user repo (pyStr bv) = none) :
    process_locator w i st nid rp =
      ({ st with stars_history := st.stars_history ++
          [{ repo_id := r._id, timestamp := w.now i, stars := r.f.stars }] },
       nid, none) := by
  simp [process_locator, hfind, hack, create_repo_in_db, hname, hapi, hbr, hrd]

/-- C3 witness: the amended theorem at a concrete store and world. -/
theorem c3_update_abort_on_absent_readme_witness :
    process_locator wNoReadme 0 stOne 0 "https://example.com/acme/widget" =
      ({ stOne with stars_history := stOne.stars_history ++
          [{ repo_id := rCur._id, timestamp := wNoReadme.now 0, stars := rCur.f.stars }] },
       0, none) :=
  c3_update_abort_on_absent_readme wNoReadme 0 0 stOne
    "https://example.com/acme/widget" "acme" "widget" rCur infoW (JValue.str "main")
    rfl rfl rfl rfl rfl rfl

/-- C3 counterexample: the record `rCur` has 5 stars, the freshly fetched
metadata maps successfully to 7 stars, yet after the cycle (README fetch
absent) the stored record still carries ALL its old values — the claim that
"all other fields are still updated from the freshly fetched metadata" is
false at this input. -/
theorem c3_fields_not_updated_counterexample :
    process_locator wNoReadme 0 stOne 0 "https://example.com/acme/widget" =
      ({ repos := [rCur],
         stars_history := [{ repo_id := 3, timestamp := 0, stars := 5 }] }, 0, none) ∧
    construct_repo_from_api infoW = Except.ok (some fieldsW) ∧
    fieldsW.stars = 7 ∧ rCur.f.stars = 5 :=
  ⟨by decide, by decide, by decide, by decide⟩

/-- C5: history ordering — for an existing record `r` (stars `S = r.f.stars`
before the sync), a fully successful update appends exactly one
StarHistorySample carrying `stars = S`, and rewrites the record in place
(same `_id`) with the freshly mapped fields, whose `stars` is the newly
fetched `f0.stars`. -/
theorem c5_history_ordering (w : World) (i nid : Nat) (st : Store)
    (rp user repo rd : String) (r : StoredRepo) (info bv : JValue) (f0 : RepoFields)
    (hfind : st.repos.find? (fun x => x.f.url == rp) = some r)
    (hack : w.historyAck i = true)
    (hname : get_repo_name rp = Except.ok (user, repo))
    (hapi : w.api user repo = some info)
    (hbr : jGet info "default_branch" = Except.ok bv)
    (hrd : w.readme user repo (pyStr bv) = some rd)
    (hmap : construct_repo_from_api info = Except.ok (some f0))
    (hupd : w.updateAck i = true) :
    ∃ a b, st.repos = a ++ r :: b ∧
      process_locator w i st nid rp =
        ({ repos := a ++ ({ r with f := { f0 with readme := rd } }) :: b,
           stars_history := st.stars_history ++
             [{ repo_id := r._id, timestamp := w.now i, stars := r.f.stars }] },
         nid, none) := by
  obtain ⟨a, b, hab, hru, hupdeq⟩ := find_url_split hfind
  refine ⟨a, b, hab, ?_⟩
  have hc := create_update_ok w i nid
      ⟨st.repos, st.stars_history ++
        [{ repo_id := r._id, timestamp := w.now i, stars := r.f.stars }]⟩
      rp user repo info bv rd f0 hname hapi hbr hrd hmap hupd
  rw [hupdeq] at hc
  simp [process_locator, hfind, hack, hc]

/-- C5 witness: the theorem at a concrete store and world — the sample keeps
the pre-update 5 stars while the record is rewritten with the fetched 7. -/
theorem c5_history_ordering_witness :
    ∃ a b, stOne.repos = a ++ rCur :: b ∧
      process_locator wGood 0 stOne 0 "https://example.com/acme/widget" =
        ({ repos := a ++ ({ rCur with f := { fieldsW with readme := "README text" } }) :: b,
           stars_history := stOne.stars_history ++
             [{ repo_id := rCur._id, timestamp := wGood.now 0, stars := rCur.f.stars }] },
         0, none) :=
  c5_history_ordering wGood 0 0 stOne "https://example.com/acme/widget"
    "acme" "widget" "README text" rCur infoW (JValue.str "main") fieldsW
    rfl rfl rfl rfl rfl rfl rfl rfl

/-- C8 (amended): the persisted field set of a successful update excludes
only `_id` — the updated record keeps its `_id` — but it does include
`url`: the stored `url` after the update is the freshly fetched
`html_url` (`f0.url`), which can differ from its pre-update value. -/
theorem c8_update_frame (w : World) (i nid : Nat) (st : Store)
    (rp user repo rd : String) (r : StoredRepo) (info bv : JValue) (f0 : RepoFields)
    (hfind : st.repos.find? (fun x => x.f.url == rp) = some r)
    (hname : get_repo_name rp = Except.ok (user, repo))
    (hapi : w.api user repo = some info)
    (hbr : jGet info "default_branch" = Except.ok bv)
    (hrd : w.readme user repo (pyStr bv) = some rd)
    (hmap : construct_repo_from_api info = Except.ok (some f0))
    (hupd : w.updateAck i = true) :
    ∃ a b, st.repos = a ++ r :: b ∧
      create_repo_in_db w i st rp true nid =
        Except.ok ({ st with
                     repos := a ++ ({ r with f := { f0 with readme := rd } }) :: b },
                   nid) ∧
      ({ f0 with readme := rd } : RepoFields).url = f0.url := by
  obtain ⟨a, b, hab, hru, hupdeq⟩ := find_url_split hfind
  refine ⟨a, b, hab, ?_, rfl⟩
  rw [create_update_ok w i nid st rp user repo info bv rd f0 hname hapi hbr hrd
      hmap hupd, hupdeq]

/-- C8 witness: the amended theorem at a concrete store and world. -/
theorem c8_update_frame_witness :
    ∃ a b, stOne.repos = a ++ rCur :: b ∧
      create_repo_in_db wGood 0 stOne "https://example.com/acme/widget" true 0 =
        Except.ok ({ stOne with
                     repos := a ++ ({ rCur with f := { fieldsW with readme := "README text" } }) :: b },
                   0) ∧
      ({ fieldsW with readme := "README text" } : RepoFields).url = fieldsW.url :=
  c8_update_frame wGood 0 0 stOne "https://example.com/acme/widget"
    "acme" "widget" "README text" rCur infoW (JValue.str "main") fieldsW
    rfl rfl rfl rfl rfl rfl rfl

/-- C8 counterexample: a record stored under the trailing-slash URL is
updated from metadata whose `html_url` has no trailing slash; after the
update the stored `url` has CHANGED — `url` is part of the persisted field
set, refuting "the stored record's id and url after the update equal their
values before it". -/
theorem c8_url_overwritten_counterexample :
    stSlash.repos.map (fun r => r.f.url) = ["https://example.com/acme/widget/"] ∧
    ((process_locator wGood 0 stSlash 0 "https://example.com/acme/widget/").1).repos.map
        (fun r => r.f.url) = ["https://example.com/acme/widget"] :=
  ⟨by decide, by decide⟩

/-- Processing one locator produces no fatal (batch-aborting) error as soon
as the locator is new or its history insert is acknowledged: every failure
inside `create_repo_in_db` is caught by the per-locator `try/except`. -/
theorem process_locator_no_fatal (w : World) (i : Nat) (st : Store) (nid : Nat)
    (rp : String)
    (h : st.repos.find? (fun r => r.f.url == rp) = none ∨ w.historyAck i = true) :
    ∃ st2 nid2, process_locator w i st nid rp = (st2, nid2, none) := by
  cases hf : st.repos.find? (fun r => r.f.url == rp) with
  | none =>
      cases hc : create_repo_in_db w i st rp false nid with
      | ok p =>
          obtain ⟨s2, n2⟩ := p
          exact ⟨s2, n2, by simp [process_locator, hf, hc]⟩
      | error e => exact ⟨st, nid, by simp [process_locator, hf, hc]⟩
  | some r =>
      have hack : w.historyAck i = true := by
        rcases h with h | h
        · rw [hf] at h; exact absurd h (by simp)
        · exact h
      cases hc : create_repo_in_db w i
          { st with stars_history := st.stars_history ++
            [{ repo_id := r._id, timestamp := w.now i, stars := r.f.stars }] }
          rp true nid with
      | ok p =>
          obtain ⟨s2, n2⟩ := p
          exact ⟨s2, n2, by simp [process_locator, hf, hack, hc]⟩
      | error e =>
          exact ⟨{ st with stars_history := st.stars_history ++
                    [{ repo_id := r._id, timestamp := w.now i, stars := r.f.stars }] },
                 nid, by simp [process_locator, hf, hack, hc]⟩

/-- C1 (amended): every failure raised inside `create_repo_in_db` (locator
parse, fetch, mapping, README, insert/update acknowledgement) is caught at
the per-locator boundary and the loop proceeds to the remaining locators;
but an unacknowledged `stars_history` insert for an existing record raises
OUTSIDE the per-locator `try/except` and aborts the whole batch, leaving
every remaining locator unprocessed. -/
theorem c1_per_locator_boundary (w : World) (rp : String) (rest : List String)
    (st : Store) (i nid : Nat) :
    ((st.repos.find? (fun r => r.f.url == rp) = none ∨ w.historyAck i = true) →
      ∃ st2 nid2, run_batch w (rp :: rest) st i nid =
        run_batch w rest st2 (i + 1) nid2) ∧
    (∀ r, st.repos.find? (fun r2 => r2.f.url == rp) = some r →
      w.historyAck i = false →
      run_batch w (rp :: rest) st i nid =
        (st, nid, some "Error: Failed to insert star update into db")) := by
  constructor
  · intro h
    obtain ⟨st2, nid2, hp⟩ := process_locator_no_fatal w i st nid rp h
    exact ⟨st2, nid2, by simp [run_batch, hp]⟩
  · intro r hf hack
    simp [run_batch, process_locator, hf, hack]

/-- C1 witness: the amended theorem's fatal branch at a concrete input. -/
theorem c1_per_locator_boundary_witness :
    run_batch wAckFail ["https://example.com/acme/widget"] stOne 0 0 =
      (stOne, 0, some "Error: Failed to insert star update into db") :=
  (c1_per_locator_boundary wAckFail "https://example.com/acme/widget" [] stOne 0 0).2
    rCur rfl rfl

/-- C1 counterexample: the watch-list holds the existing `acme/widget` and
the new `acme/gadget`; the history insert for the first is unacknowledged,
the raised error escapes the per-locator boundary and the batch stops —
although processing the remaining locator alone would have succeeded and
stored the gadget record (second conjunct). This refutes "it never
propagates out of that locator's processing, and the loop proceeds to
process every remaining locator". -/
theorem c1_batch_abort_counterexample :
    run_batch wAckFail
        ["https://example.com/acme/widget", "https://example.com/acme/gadget"]
        stOne 0 0 =
      (stOne, 0, some "Error: Failed to insert star update into db") ∧
    ((process_locator wAckFail 1 stOne 0 "https://example.com/acme/gadget").1).repos.length = 2 :=
  ⟨by decide, by decide⟩

/-- Processing one locator can only extend `stars_history` on the right. -/
theorem process_locator_history_extends (w : World) (i : Nat) (st : Store)
    (nid : Nat) (rp : String) :
    ∃ t, ((process_locator w i st nid rp).1).stars_history =
      st.stars_history ++ t := by
  cases hf : st.repos.find? (fun r => r.f.url == rp) with
  | none =>
      cases hc : create_repo_in_db w i st rp false nid with
      | ok p =>
          obtain ⟨s2, n2⟩ := p
          exact ⟨[], by simp [process_locator, hf, hc, create_history_eq hc]⟩
      | error e => exact ⟨[], by simp [process_locator, hf, hc]⟩
  | some r =>
      cases hack : w.historyAck i with
      | false => exact ⟨[], by simp [process_locator, hf, hack]⟩
      | true =>
          cases hc : create_repo_in_db w i
              { st with stars_history := st.stars_history ++
                [{ repo_id := r._id, timestamp := w.now i, stars := r.f.stars }] }
              rp true nid with
          | ok p =>
              obtain ⟨s2, n2⟩ := p
              refine ⟨[{ repo_id := r._id, timestamp := w.now i, stars := r.f.stars }], ?_⟩
              have h2 := create_history_eq hc
              simp [process_locator, hf, hack, hc]
              simpa using h2
          | error e =>
              exact ⟨[{ repo_id := r._id, timestamp := w.now i, stars := r.f.stars }],
                by simp [process_locator, hf, hack, hc]⟩

/-- Across a whole batch run (aborted or not), `stars_history` only grows by
appending. -/
theorem run_batch_history_extends (w : World) :
    ∀ L : List String, ∀ st : Store, ∀ i nid : Nat,
      ∃ t, ((run_batch w L st i nid).1).stars_history = st.stars_history ++ t := by
  intro L
  induction L with
  | nil => intro st i nid; exact ⟨[], by simp [run_batch]⟩
  | cons rp rest ih =>
      intro st i nid
      obtain ⟨t1, ht1⟩ := process_locator_history_extends w i st nid rp
      rcases hp : process_locator w i st nid rp with ⟨st1, nid1, e⟩
      rw [hp] at ht1
      cases e with
      | none =>
          obtain ⟨t2, ht2⟩ := ih st1 (i + 1) nid1
          refine ⟨t1 ++ t2, ?_⟩
          rw [run_batch]
          simp only [hp]
          rw [ht2]
          simp at ht1
          rw [ht1, List.append_assoc]
      | some err =>
          refine ⟨t1, ?_⟩
          rw [run_batch]
          simp only [hp]
          simpa using ht1

/-- C9: the history invariant — (1) across every batch run the engine only
ever appends to `stars_history` (it never updates or deletes a sample);
(2) no sample is appended while first-creating a record; (3) for an
existing record whose history insert is acknowledged, exactly one sample is
appended during that locator's sync cycle. -/
theorem c9_history_append_only (w : World) :
    (∀ (L : List String) (st : Store) (i nid : Nat),
      ∃ t, ((run_batch w L st i nid).1).stars_history = st.stars_history ++ t) ∧
    (∀ (i : Nat) (st : Store) (nid : Nat) (rp : String),
      st.repos.find? (fun r => r.f.url == rp) = none →
      ((process_locator w i st nid rp).1).stars_history = st.stars_history) ∧
    (∀ (i : Nat) (st : Store) (nid : Nat) (rp : String) (r : StoredRepo),
      st.repos.find? (fun r2 => r2.f.url == rp) = some r →
      w.historyAck i = true →
      ((process_locator w i st nid rp).1).stars_history =
        st.stars_history ++
          [{ repo_id := r._id, timestamp := w.now i, stars := r.f.stars }]) := by
  refine ⟨run_batch_history_extends w, ?_, ?_⟩
  · intro i st nid rp hf
    cases hc : create_repo_in_db w i st rp false nid with
    | ok p =>
        obtain ⟨s2, n2⟩ := p
        simp [process_locator, hf, hc, create_history_eq hc]
    | error e => simp [process_locator, hf, hc]
  · intro i st nid rp r hf hack
    cases hc : create_repo_in_db w i
        { st with stars_history := st.stars_history ++
          [{ repo_id := r._id, timestamp := w.now i, stars := r.f.stars }] }
        rp true nid with
    | ok p =>
        obtain ⟨s2, n2⟩ := p
        have h2 := create_history_eq hc
        simp [process_locator, hf, hack, hc]
        simpa using h2
    | error e => simp [process_locator, hf, hack, hc]

/-- C9 witness: part (3) of the invariant at a concrete input — the one
appended sample for the existing `acme/widget` record carries its pre-update
star count. -/
theorem c9_history_append_only_witness :
    ((process_locator wGood 0 stOne 0 "https://example.com/acme/widget").1).stars_history =
      stOne.stars_history ++
        [{ repo_id := rCur._id, timestamp := wGood.now 0, stars := rCur.f.stars }] :=
  (c9_history_append_only wGood).2.2 0 stOne 0 "https://example.com/acme/widget" rCur
    rfl rfl

/-- Processing a new locator whose pipeline succeeds appends one record with
a fresh `_id`. -/
theorem process_good_new (w : World) (i nid : Nat) (st : Store) (rp rd : String)
    (f0 : RepoFields)
    (hfind : st.repos.find? (fun r => r.f.url == rp) = none)
    (hfy : FetchYields w rp f0 rd)
    (hins : w.insertAck i = true)
    (hfresh : ∀ r ∈ st.repos, r._id ≠ nid) :
    process_locator w i st nid rp =
      ({ st with repos := st.repos ++ [{ _id := nid, f := { f0 with readme := rd } }] },
       nid + 1, none) := by
  obtain ⟨user, repo, info, bv, hname, hapi, hbr, hrd, hmap⟩ := hfy
  have hc := create_insert_ok w i nid st rp user repo info bv rd f0
    hname hapi hbr hrd hmap hins hfresh
  simp [process_locator, hfind, hc]

/-- Processing an existing locator whose pipeline succeeds appends one
history sample and rewrites the first matching record in place. -/
theorem process_good_exists (w : World) (i nid : Nat) (st : Store) (rp rd : String)
    (f0 : RepoFields) (r : StoredRepo)
    (hfind : st.repos.find? (fun x => x.f.url == rp) = some r)
    (hfy : FetchYields w rp f0 rd)
    (hack : w.historyAck i = true)
    (hupd : w.updateAck i = true) :
    process_locator w i st nid rp =
      ({ repos := updateOneByUrl st.repos rp { f0 with readme := rd },
         stars_history := st.stars_history ++
           [{ repo_id := r._id, timestamp := w.now i, stars := r.f.stars }] },
       nid, none) := by
  obtain ⟨user, repo, info, bv, hname, hapi, hbr, hrd, hmap⟩ := hfy
  have hc := create_update_ok w i nid
      ⟨st.repos, st.stars_history ++
        [{ repo_id := r._id, timestamp := w.now i, stars := r.f.stars }]⟩
      rp user repo info bv rd f0 hname hapi hbr hrd hmap hupd
  simp [process_locator, hfind, hack, hc]

/-- A batch over pairwise-distinct locators that are all absent from the
store, with every pipeline succeeding, every insert acknowledged, and every
fetched `html_url` equal to its locator, inserts exactly one record per
locator and touches nothing else. -/
theorem run_batch_all_new (w : World) (hI : ∀ j, w.insertAck j = true) :
    ∀ L : List String, ∀ st : Store, ∀ i nid : Nat,
      L.Nodup →
      (∀ rp ∈ L, ∃ f0 rd, FetchYields w rp f0 rd ∧ f0.url = rp) →
      (∀ rp ∈ L, countUrl st.repos rp = 0) →
      (∀ r ∈ st.repos, r._id < nid) →
      ∃ st2 nid2, run_batch w L st i nid = (st2, nid2, none) ∧
        (∀ u, countUrl st2.repos u =
          countUrl st.repos u + (if u ∈ L then 1 else 0)) ∧
        (∀ r ∈ st2.repos, r._id < nid2) ∧
        st2.stars_history = st.stars_history := by
  intro L
  induction L with
  | nil =>
      intro st i nid _ _ _ hid
      exact ⟨st, nid, by simp [run_batch], fun u => by simp, hid, rfl⟩
  | cons rp rest ih =>
      intro st i nid hnd hgood hzero hid
      obtain ⟨f0, rd, hfy, hurl⟩ := hgood rp (List.mem_cons_self rp rest)
      have hfind := find_none_of_countUrl_zero (hzero rp (List.mem_cons_self rp rest))
      have hfresh : ∀ r ∈ st.repos, r._id ≠ nid := fun r hr => Nat.ne_of_lt (hid r hr)
      have hp := process_good_new w i nid st rp rd f0 hfind hfy (hI i) hfresh
      have hrpnotin : rp ∉ rest := (List.nodup_cons.mp hnd).1
      have hfu : ({ f0 with readme := rd } : RepoFields).url = rp := hurl
      have hzero1 : ∀ v ∈ rest,
          countUrl (st.repos ++ [{ _id := nid, f := { f0 with readme := rd } }]) v = 0 := by
        intro v hv
        rw [countUrl_append_single]
        have hne : ¬ ({ f0 with readme := rd } : RepoFields).url = v := by
          rw [hfu]
          intro hh
          exact hrpnotin (hh ▸ hv)
        rw [if_neg hne, hzero v (List.mem_cons_of_mem rp hv)]
      have hid1 : ∀ r ∈ st.repos ++ [{ _id := nid, f := { f0 with readme := rd } }],
          r._id < nid + 1 := by
        intro r hr
        rcases List.mem_append.mp hr with h | h
        · exact Nat.lt_succ_of_lt (hid r h)
        · simp only [List.mem_singleton] at h
          rw [h]
          exact Nat.lt_succ_self nid
      obtain ⟨st2, nid2, hrun, hcount, hid2, hhist⟩ :=
        ih { st with repos := st.repos ++ [{ _id := nid, f := { f0 with readme := rd } }] }
          (i + 1) (nid + 1) (List.nodup_cons.mp hnd).2
          (fun v hv => hgood v (List.mem_cons_of_mem rp hv)) hzero1 hid1
      refine ⟨st2, nid2, ?_, ?_, hid2, hhist⟩
      · rw [run_batch]
        simp only [hp]
        exact hrun
      · intro u
        rw [hcount u]
        dsimp only
        rw [countUrl_append_single]
        by_cases hurp : u = rp
        · subst hurp
          rw [if_pos hfu, if_neg hrpnotin, if_pos (List.mem_cons_self u rest)]
        · have hfneg : ¬ ({ f0 with readme := rd } : RepoFields).url = u := by
            rw [hfu]
            exact fun hh => hurp hh.symm
          rw [if_neg hfneg]
          by_cases hur : u ∈ rest
          · rw [if_pos hur, if_pos (List.mem_cons_of_mem rp hur)]
          · rw [if_neg hur, if_neg (by simp [List.mem_cons, hurp, hur])]

/-- A batch over locators that all have at least one stored record, with
every pipeline succeeding, history and update writes acknowledged, and every
fetched `html_url` equal to its locator, only updates in place: all per-url
record counts and the total record count are unchanged. -/
theorem run_batch_all_existing (w : World)
    (hH : ∀ j, w.historyAck j = true) (hU : ∀ j, w.updateAck j = true) :
    ∀ L : List String, ∀ st : Store, ∀ i nid : Nat,
      (∀ rp ∈ L, ∃ f0 rd, FetchYields w rp f0 rd ∧ f0.url = rp) →
      (∀ rp ∈ L, 0 < countUrl st.repos rp) →
      ∃ st2 nid2, run_batch w L st i nid = (st2, nid2, none) ∧
        (∀ u, countUrl st2.repos u = countUrl st.repos u) ∧
        st2.repos.length = st.repos.length := by
  intro L
  induction L with
  | nil =>
      intro st i nid _ _
      exact ⟨st, nid, by simp [run_batch], fun u => rfl, rfl⟩
  | cons rp rest ih =>
      intro st i nid hgood hpos
      obtain ⟨f0, rd, hfy, hurl⟩ := hgood rp (List.mem_cons_self rp rest)
      obtain ⟨r, hfind⟩ := find_some_of_countUrl_pos (hpos rp (List.mem_cons_self rp rest))
      have hp := process_good_exists w i nid st rp rd f0 r hfind hfy (hH i) (hU i)
      have hfu : ({ f0 with readme := rd } : RepoFields).url = rp := hurl
      have hcounts : ∀ v,
          countUrl (updateOneByUrl st.repos rp { f0 with readme := rd }) v =
            countUrl st.repos v :=
        fun v => countUrl_updateOne st.repos rp v { f0 with readme := rd } hfu
      obtain ⟨st2, nid2, hrun, hcount, hlen⟩ :=
        ih { repos := updateOneByUrl st.repos rp { f0 with readme := rd },
             stars_history := st.stars_history ++
               [{ repo_id := r._id, timestamp := w.now i, stars := r.f.stars }] }
          (i + 1) nid
          (fun v hv => hgood v (List.mem_cons_of_mem rp hv))
          (fun v hv => by
            dsimp only
            rw [hcounts v]
            exact hpos v (List.mem_cons_of_mem rp hv))
      refine ⟨st2, nid2, ?_, ?_, ?_⟩
      · rw [run_batch]
        simp only [hp]
        exact hrun
      · intro u
        rw [hcount u]
        dsimp only
        rw [hcounts u]
      · rw [hlen]
        dsimp only
        rw [updateOneByUrl_length]

/-- C4 (amended): starting from a store with no records, running the batch
twice over a duplicate-free watch-list — with unchanged, fully successful
external responses, acknowledged writes, AND every locator's fetched
`html_url` equal to the locator string itself — yields exactly one
Repository record per locator: the second run finds each record by `url`
and updates it in place, inserting nothing.  (Without the `html_url = locator`
proviso the second run's lookup misses and re-inserts: see the
counterexample.) -/
theorem c4_idempotent_upsert (w : World) (L : List String)
    (hH : ∀ j, w.historyAck j = true) (hU : ∀ j, w.updateAck j = true)
    (hI : ∀ j, w.insertAck j = true) (hnd : L.Nodup)
    (hgood : ∀ rp ∈ L, ∃ f0 rd, FetchYields w rp f0 rd ∧ f0.url = rp) :
    ∃ st1 nid1 st2 nid2,
      run_batch w L emptyStore 0 0 = (st1, nid1, none) ∧
      run_batch w L st1 0 nid1 = (st2, nid2, none) ∧
      (∀ u ∈ L, countUrl st1.repos u = 1) ∧
      (∀ u ∈ L, countUrl st2.repos u = 1) ∧
      st2.repos.length = st1.repos.length := by
  obtain ⟨st1, nid1, hrun1, hcount1, _, _⟩ :=
    run_batch_all_new w hI L emptyStore 0 0 hnd hgood (fun rp _ => rfl)
      (fun r hr => absurd hr (by simp [emptyStore]))
  have hones : ∀ u ∈ L, countUrl st1.repos u = 1 := by
    intro u hu
    rw [hcount1 u, if_pos hu]
    rfl
  obtain ⟨st2, nid2, hrun2, hcount2, hlen⟩ :=
    run_batch_all_existing w hH hU L st1 0 nid1 hgood
      (fun rp hrp => by rw [hones rp hrp]; exact Nat.one_pos)
  exact ⟨st1, nid1, st2, nid2, hrun1, hrun2, hones,
    fun u hu => by rw [hcount2 u]; exact hones u hu, hlen⟩

/-- C4 witness: the amended theorem at a one-element watch-list whose
locator equals the canonical `html_url`. -/
theorem c4_idempotent_upsert_witness :
    ∃ st1 nid1 st2 nid2,
      run_batch wGood ["https://example.com/acme/widget"] emptyStore 0 0 =
        (st1, nid1, none) ∧
      run_batch wGood ["https://example.com/acme/widget"] st1 0 nid1 =
        (st2, nid2, none) ∧
      (∀ u ∈ ["https://example.com/acme/widget"], countUrl st1.repos u = 1) ∧
      (∀ u ∈ ["https://example.com/acme/widget"], countUrl st2.repos u = 1) ∧
      st2.repos.length = st1.repos.length :=
  c4_idempotent_upsert wGood ["https://example.com/acme/widget"]
    (fun _ => rfl) (fun _ => rfl) (fun _ => rfl) (by decide)
    (fun rp hrp => by
      rw [List.mem_singleton] at hrp
      subst hrp
      exact ⟨fieldsW, "README text",
        ⟨"acme", "widget", infoW, JValue.str "main", rfl, rfl, rfl, rfl, rfl⟩, rfl⟩)

/-- C4 counterexample: the watch-list locator carries a trailing slash while
the fetched `html_url` does not; the first run inserts the record under the
slash-less `html_url`, so the second run's `find_one({"url": locator})`
misses and INSERTS A SECOND record with the very same stored `url` — the
"exactly one Repository record per locator, the second run performs an
update" claim is false for this watch-list, and so is at-most-one-record-
per-url. -/
theorem c4_duplicate_insert_counterexample :
    ((run_batch wGood ["https://example.com/acme/widget/"] emptyStore 0 0).1).repos.map
        (fun r => r.f.url) = ["https://example.com/acme/widget"] ∧
    ((run_batch wGood ["https://example.com/acme/widget/"]
        ((run_batch wGood ["https://example.com/acme/widget/"] emptyStore 0 0).1) 0
        ((run_batch wGood ["https://example.com/acme/widget/"] emptyStore 0 0).2.1)).1).repos.map
        (fun r => r.f.url) =
      ["https://example.com/acme/widget", "https://example.com/acme/widget"] :=
  ⟨by decide, by decide⟩

end Worker
